import Mathlib

/-!
Verification of the request-orchestration core of a Discord bot that wraps
several Jewish-studies web APIs (Sefaria, Hebcal, NLI, Dicta, Chabad.org).

Each Python client method is shallowly embedded as a pure Lean function.
Network I/O is represented by an explicit `HttpOutcome` argument (what one
simulated HTTP exchange produced), mutable per-client state (rate-limiter
timestamps, the catalog cache) is passed and returned explicitly, and the
`asyncio.sleep` calls are reflected as rational "extra wait" components of
the result.  Python dynamic values are embedded as `PyVal`.
-/

/-- Embedding of the Python values that flow through the clients:
JSON payloads, dict entries, strings, numbers, booleans, `None`. -/
inductive PyVal where
  | str (s : String)
  | int (n : Int)
  | bool (b : Bool)
  | list (xs : List PyVal)
  | dict (entries : List (String × PyVal))
  | null
deriving Repr

/-- Python truthiness (`if x:`) for the embedded values. -/
def pyTruthy : PyVal → Bool
  | .str s => !(s == "")
  | .int n => !(n == 0)
  | .bool b => b
  | .list xs => !xs.isEmpty
  | .dict d => !d.isEmpty
  | .null => false

/-- One simulated HTTP exchange, as observed inside a client's
`_make_request` `try:` block.  `response status body` is a completed HTTP
response; `body` is `some j` when `await response.json()` would succeed with
payload `j` and `none` when the body is not valid JSON (so `.json()` raises,
which the `except` clause catches).  The other constructors are the raised
exceptions: `aiohttp.ClientError`, a timeout, or any other `Exception`. -/
inductive HttpOutcome where
  | response (status : Nat) (body : Option PyVal)
  | clientError
  | timeoutError
  | otherError

namespace SefariaClient

/-- `SefariaClient._make_request` (src/bot/sefaria_client.py lines 42-65),
after the session/rate-limit preamble: the result of the `try/except`
dispatch on one `HttpOutcome`.  First component: the returned value
(`Optional[Dict]`); second component: how many extra seconds the body
sleeps beyond the rate-limit gate (this client never sleeps here). -/
def make_request (o : HttpOutcome) : Option PyVal × ℚ :=
  match o with
  | .response status body =>
    if status = 200 then (body, 0)
    else if status = 404 then (none, 0)
    else (none, 0)
  | .clientError => (none, 0)
  | .timeoutError => (none, 0)
  | .otherError => (none, 0)

end SefariaClient

namespace NLIClient

/-- `NLIClient._make_request` (src/bot/nli_client.py lines 36-57): status
200 returns the parsed JSON, any other status returns `None`, and every
exception is caught and converted to `None`. -/
def make_request (o : HttpOutcome) : Option PyVal × ℚ :=
  match o with
  | .response status body =>
    if status = 200 then (body, 0)
    else (none, 0)
  | .clientError => (none, 0)
  | .timeoutError => (none, 0)
  | .otherError => (none, 0)

end NLIClient

namespace HebcalClient

/-- `HebcalClient._make_request` (src/bot/hebcal_client.py lines 41-61):
status 200 returns the parsed JSON; status 429 sleeps 2 seconds and then
returns `None`; any other status and every exception return `None`. -/
def make_request (o : HttpOutcome) : Option PyVal × ℚ :=
  match o with
  | .response status body =>
    if status = 200 then (body, 0)
    else if status = 429 then (none, 2)
    else (none, 0)
  | .clientError => (none, 0)
  | .timeoutError => (none, 0)
  | .otherError => (none, 0)

end HebcalClient

namespace RateLimiter

/-- The sleep performed by `_rate_limit` (src/bot/sefaria_client.py lines
32-40, src/bot/hebcal_client.py lines 31-39): with configured minimum
interval `delay`, last recorded dispatch time `last`, and clock reading
`now` on entry, the caller sleeps `delay - (now - last)` seconds when less
than `delay` seconds have elapsed, and does not sleep otherwise. -/
def sleep_needed (delay last now : ℚ) : ℚ :=
  if now - last < delay then delay - (now - last) else 0

/-- `_rate_limit` as a state step: entering with last dispatch timestamp
`last` and clock `t1`, sleeping, and re-reading the clock as `t2` (the
value stored into `_last_request_time`), it returns the pair
(seconds slept, new recorded timestamp). -/
def rate_limit (delay last t1 t2 : ℚ) : ℚ × ℚ :=
  (sleep_needed delay last t1, t2)

end RateLimiter

/-- One entry of the Dicta books catalog (`books.json`), restricted to the
string fields `search_books` reads via `book.get(key, '')`:
`displayName` / `displayNameEnglish` (native and transliterated title),
`author` / `authorEnglish`, `categoryEnglish`. -/
structure Book where
  displayName : String
  displayNameEnglish : String
  author : String
  authorEnglish : String
  categoryEnglish : String
deriving Repr, DecidableEq

/-- Is `needle` a prefix of `hay`?  (Char-list version of Python's
`str.startswith`, used to build substring containment.) -/
def prefixOfL : List Char → List Char → Bool
  | [], _ => true
  | _ :: _, [] => false
  | a :: as, b :: bs => a == b && prefixOfL as bs

/-- Python's substring test `needle in hay` on char lists: some suffix of
`hay` starts with `needle`.  (`"" in s` is `True`, as in Python.) -/
def containsSub (hay needle : List Char) : Bool :=
  match hay with
  | [] => prefixOfL needle []
  | _ :: t => prefixOfL needle hay || containsSub t needle

/-- Python `s.lower()` as a char list (`str.lower` maps each character). -/
def lowerData (s : String) : List Char := s.data.map Char.toLower

namespace DictaClient

/-- State-passing embedding of `DictaClient.get_books_library`
(src/bot/dicta_client.py lines 66-74).  Inputs: the current `books_cache`
(`none` = Python `None`) and what `_make_request(books_json_url)` would
return if it were issued.  Outputs: the returned book list, the new cache,
and whether a network fetch was issued on this call. -/
def get_books_library (cache : Option (List PyVal)) (fetched : Option PyVal) :
    List PyVal × Option (List PyVal) × Bool :=
  match cache with
  | some books => (books, some books, false)
  | none =>
    let newBooks : List PyVal :=
      match fetched with
      | some (.list xs) => if pyTruthy (.list xs) then xs else []
      | _ => []
    (newBooks, some newBooks, true)

/-- The sequential `match` flag computation in the body of the
`for book in books:` loop of `DictaClient.search_books`
(src/bot/dicta_client.py lines 86-106), with the query, category filter and
author filter already lowercased (as `query_lower` etc. are). -/
def book_match (ql cl al : List Char) (b : Book) : Bool :=
  let m0 := false
  let m1 := if containsSub (lowerData b.displayName) ql
              || containsSub (lowerData b.displayNameEnglish) ql then true else m0
  let m2 := if containsSub (lowerData b.author) ql
              || containsSub (lowerData b.authorEnglish) ql then true else m1
  let m3 := if !(cl == []) && !containsSub (lowerData b.categoryEnglish) cl then false else m2
  let m4 := if !(al == []) && (!containsSub (lowerData b.author) al
              && !containsSub (lowerData b.authorEnglish) al) then false else m3
  m4

/-- The accumulation loop of `DictaClient.search_books`: append each
matching book and `break` as soon as `len(filtered_books) >= limit`.
`limit` is a Python `int`, so it is embedded as `Int`. -/
def search_books_loop (ql cl al : List Char) (limit : Int) (acc : List Book) :
    List Book → List Book
  | [] => acc
  | b :: bs =>
    if book_match ql cl al b then
      let acc' := acc ++ [b]
      if limit ≤ (acc'.length : Int) then acc'
      else search_books_loop ql cl al limit acc' bs
    else search_books_loop ql cl al limit acc bs

/-- `DictaClient.search_books` (src/bot/dicta_client.py lines 76-113) on an
already-loaded catalog: lowercase the query and the two filters, then run
the scan loop. -/
def search_books (books : List Book) (query category author : String) (limit : Int) :
    List Book :=
  search_books_loop (lowerData query) (lowerData category) (lowerData author) limit [] books

/-- The match predicate in the words of the spec (section 4.4): the
case-insensitive query substring appears in native-or-transliterated title
OR native-or-transliterated author; a non-empty category filter requires
the English category field to contain it; a non-empty author filter
requires the native-or-transliterated author to contain it. -/
def matches_spec (query category author : String) (b : Book) : Bool :=
  (containsSub (lowerData b.displayName) (lowerData query)
    || containsSub (lowerData b.displayNameEnglish) (lowerData query)
    || containsSub (lowerData b.author) (lowerData query)
    || containsSub (lowerData b.authorEnglish) (lowerData query))
  && (category == "" || containsSub (lowerData b.categoryEnglish) (lowerData category))
  && (author == "" || containsSub (lowerData b.author) (lowerData author)
        || containsSub (lowerData b.authorEnglish) (lowerData author))

end DictaClient

/-- Is an embedded value a Python `list`?  (`isinstance(result, list)`.) -/
def PyVal.isList : PyVal → Bool
  | .list _ => true
  | _ => false

/-- Fixture catalog entry whose title contains "Talmud". -/
def bkTalmud : Book :=
  ⟨"Talmud Bavli", "Talmud Bavli", "Ravina", "Ravina", "Talmud"⟩

/-- Fixture catalog entry unrelated to the query "talmud". -/
def bkSiddur : Book :=
  ⟨"Siddur", "Siddur", "Anonymous", "Anonymous", "Liturgy"⟩

/-- A Python `dict` with string keys, in insertion order. -/
abbrev PyDict := List (String × PyVal)

namespace PyDict

/-- Dict lookup: `d[k]` / `k in d` (first binding wins; real dicts have
unique keys). -/
def getVal : PyDict → String → Option PyVal
  | [], _ => none
  | (k', v) :: d, k => if k' = k then some v else getVal d k

/-- Dict assignment `d[k] = v`: update the existing binding in place, or
append a new one (Python dicts preserve insertion order). -/
def setVal : PyDict → String → PyVal → PyDict
  | [], k, v => [(k, v)]
  | (k', v') :: d, k, v => if k' = k then (k, v) :: d else (k', v') :: setVal d k v

end PyDict

/-- Python `.strip()` on a char list: drop leading and trailing
whitespace. -/
def stripL (l : List Char) : List Char :=
  ((l.dropWhile Char.isWhitespace).reverse.dropWhile Char.isWhitespace).reverse

/-- Python `reference.strip()` as a char list. -/
def pyStrip (s : String) : List Char := stripL s.data

namespace SefariaClient

/-- One truncation step of `SefariaClient.get_text`: if key `k` holds a
list longer than `n`, replace it by its first `n` elements and set the
boolean `marker` key; otherwise leave the dict unchanged.  With `n = 1`,
`marker = "single_verse"` this is lines 129-137 of
src/bot/sefaria_client.py (per key); with `n = 3`, `marker = "truncated"`
it is lines 140-148. -/
def trunc_key (d : PyDict) (k : String) (n : Nat) (marker : String) : PyDict :=
  match PyDict.getVal d k with
  | some (.list xs) =>
    if n < xs.length then
      PyDict.setVal (PyDict.setVal d k (.list (xs.take n))) marker (.bool true)
    else d
  | _ => d

/-- The branch test of `get_text` line 127: the stripped reference contains
':' and no '-' (a single-verse request). -/
def single_verse_shape (reference : String) : Bool :=
  (pyStrip reference).contains ':' && !((pyStrip reference).contains '-')

/-- `SefariaClient.get_text` (src/bot/sefaria_client.py lines 108-154)
after the fetch: `fetched` is what `_make_request` returned for the
(stripped, URL-encoded) reference.  Falsy or key-less payloads give `None`;
a reference containing ':' and no '-' takes the single-verse path,
everything else the range/chapter path. -/
def get_text (reference : String) (fetched : Option PyDict) : Option PyDict :=
  match fetched with
  | none => none
  | some d =>
    if d.isEmpty then none
    else if (PyDict.getVal d "text").isNone && (PyDict.getVal d "he").isNone then none
    else if single_verse_shape reference then
      some (trunc_key (trunc_key d "text" 1 "single_verse") "he" 1 "single_verse")
    else
      some (trunc_key (trunc_key d "text" 3 "truncated") "he" 3 "truncated")

end SefariaClient

/-- Fixture payload for the single-verse path: two text verses and two
Hebrew verses. -/
def dTwoVerses : PyDict :=
  [("text", .list [.str "a", .str "b"]), ("he", .list [.str "x", .str "y"])]

/-- Fixture payload with neither a "text" nor a "he" key. -/
def dNoText : PyDict := [("ref", .str "X")]

/-- Python `s.rfind(c)` on a char list: the highest index holding `c`, or
-1 when absent. -/
def rfindC (l : List Char) (c : Char) : Int :=
  match l with
  | [] => -1
  | x :: xs =>
    let r := rfindC xs c
    if 0 ≤ r then r + 1
    else if x = c then 0 else -1

/-- Python slice `s[:k]` for an `int` bound `k` (a negative bound counts
from the end, clamped at 0). -/
def pySlice (l : List Char) (k : Int) : List Char :=
  if k < 0 then l.take (l.length - (-k).toNat) else l.take k.toNat

/-- `max(truncated.rfind('.'), truncated.rfind('!'), truncated.rfind('?'))`
from `truncate_text`. -/
def last_sentence_idx (t : List Char) : Int :=
  max (rfindC t '.') (max (rfindC t '!') (rfindC t '?'))

/-- `truncate_text` (src/bot/utils.py lines 146-172) over char lists.
Two embedding notes: the float thresholds `last_sentence > max_length * 0.7`
and `last_space > max_length * 0.8` are embedded as the exact rational
comparisons `10*x > 7*m` and `10*x > 8*m` (float rounding of 0.7/0.8 can
shift the branch choice only at boundary values, and every branch satisfies
the properties proved below); and the single trailing `truncated + "..."`
of the source is distributed into the three branches that produce the
truncated body. -/
def truncate_text (text : List Char) (max_length : Nat) : List Char :=
  if text.isEmpty then []
  else if text.length ≤ max_length then text
  else if 7 * (max_length : Int) < 10 * last_sentence_idx (text.take max_length) then
    pySlice (text.take max_length) (last_sentence_idx (text.take max_length) + 1) ++ ['.', '.', '.']
  else if 8 * (max_length : Int) < 10 * rfindC (text.take max_length) ' ' then
    pySlice (text.take max_length) (rfindC (text.take max_length) ' ') ++ ['.', '.', '.']
  else
    pySlice (text.take max_length) ((max_length : Int) - 3) ++ ['.', '.', '.']

/-! ### SHA-1 / HMAC / base64 (the primitives `_create_auth_header` calls)

Bytes are `Nat`s `< 256` and 32-bit words `Nat`s `< 2^32`, with wrapping
made explicit by `% 2^32`. -/

/-- Truncation to a 32-bit word. -/
def w32 (n : Nat) : Nat := n % 4294967296

/-- Left rotation of a 32-bit word. -/
def rotl32 (x n : Nat) : Nat := w32 ((x <<< n) ||| (x >>> (32 - n)))

/-- 32-bit complement. -/
def bnot32 (x : Nat) : Nat := x ^^^ 4294967295

/-- The SHA-1 round function `f` (FIPS 180-4). -/
def sha1_f (i b c d : Nat) : Nat :=
  if i < 20 then (b &&& c) ||| (bnot32 b &&& d)
  else if i < 40 then b ^^^ c ^^^ d
  else if i < 60 then (b &&& c) ||| (b &&& d) ||| (c &&& d)
  else b ^^^ c ^^^ d

/-- The SHA-1 round constants. -/
def sha1_k (i : Nat) : Nat :=
  if i < 20 then 0x5A827999
  else if i < 40 then 0x6ED9EBA1
  else if i < 60 then 0x8F1BBCDC
  else 0xCA62C1D6

/-- Big-endian assembly of 4-byte groups into 32-bit words. -/
def bytesToWords : List Nat → List Nat
  | b0 :: b1 :: b2 :: b3 :: rest =>
    (b0 * 16777216 + b1 * 65536 + b2 * 256 + b3) :: bytesToWords rest
  | _ => []

/-- Extend the 16 schedule words to 80:
`w[i] = rotl1 (w[i-3] xor w[i-8] xor w[i-14] xor w[i-16])`. -/
def sha1_extend : Nat → List Nat → List Nat
  | 0, w => w
  | n + 1, w =>
    let l := w.length
    let x := (w.getD (l - 3) 0) ^^^ (w.getD (l - 8) 0)
      ^^^ (w.getD (l - 14) 0) ^^^ (w.getD (l - 16) 0)
    sha1_extend n (w ++ [rotl32 x 1])

/-- The 80 SHA-1 rounds over the schedule words. -/
def sha1_rounds : Nat → (Nat × Nat × Nat × Nat × Nat) → List Nat → Nat × Nat × Nat × Nat × Nat
  | _, st, [] => st
  | i, (a, b, c, d, e), wi :: rest =>
    let temp := w32 (rotl32 a 5 + sha1_f i b c d + e + sha1_k i + wi)
    sha1_rounds (i + 1) (temp, a, rotl32 b 30, c, d) rest

/-- One 64-byte SHA-1 compression step. -/
def sha1_chunk (h : Nat × Nat × Nat × Nat × Nat) (chunk : List Nat) :
    Nat × Nat × Nat × Nat × Nat :=
  let (h0, h1, h2, h3, h4) := h
  let (a, b, c, d, e) := sha1_rounds 0 h (sha1_extend 64 (bytesToWords chunk))
  (w32 (h0 + a), w32 (h1 + b), w32 (h2 + c), w32 (h3 + d), w32 (h4 + e))

/-- Big-endian 4-byte serialization of a 32-bit word. -/
def u32be (x : Nat) : List Nat :=
  [(x >>> 24) % 256, (x >>> 16) % 256, (x >>> 8) % 256, x % 256]

/-- Big-endian 8-byte serialization of a 64-bit length field. -/
def u64be (x : Nat) : List Nat :=
  [(x >>> 56) % 256, (x >>> 48) % 256, (x >>> 40) % 256, (x >>> 32) % 256,
   (x >>> 24) % 256, (x >>> 16) % 256, (x >>> 8) % 256, x % 256]

/-- SHA-1 padding: `0x80`, zeros to 56 mod 64, then the bit length. -/
def sha1_pad (msg : List Nat) : List Nat :=
  msg ++ [128] ++ List.replicate ((119 - msg.length % 64) % 64) 0 ++ u64be (8 * msg.length)

/-- Split into 64-byte chunks (fuel-based so it computes by `rfl`). -/
def chunk64F : Nat → List Nat → List (List Nat)
  | 0, _ => []
  | _, [] => []
  | f + 1, l => l.take 64 :: chunk64F f (l.drop 64)

/-- SHA-1 of a byte sequence (`hashlib.sha1`). -/
def sha1_bytes (msg : List Nat) : List Nat :=
  let padded := sha1_pad msg
  let (h0, h1, h2, h3, h4) := (chunk64F padded.length padded).foldl sha1_chunk
    (0x67452301, 0xEFCDAB89, 0x98BADCFE, 0x10325476, 0xC3D2E1F0)
  u32be h0 ++ u32be h1 ++ u32be h2 ++ u32be h3 ++ u32be h4

/-- HMAC-SHA1 (`hmac.new(key, msg, hashlib.sha1)`, FIPS 198-1,
block size 64). -/
def hmac_sha1 (key msg : List Nat) : List Nat :=
  let key1 := if 64 < key.length then sha1_bytes key else key
  let key2 := key1 ++ List.replicate (64 - key1.length) 0
  sha1_bytes ((key2.map (fun b => b ^^^ 92)) ++ sha1_bytes ((key2.map (fun b => b ^^^ 54)) ++ msg))

/-- UTF-8 encoding of one code point (`str.encode()`). -/
def utf8Char (c : Char) : List Nat :=
  let n := c.toNat
  if n < 128 then [n]
  else if n < 2048 then [192 ||| (n >>> 6), 128 ||| (n &&& 63)]
  else if n < 65536 then
    [224 ||| (n >>> 12), 128 ||| ((n >>> 6) &&& 63), 128 ||| (n &&& 63)]
  else
    [240 ||| (n >>> 18), 128 ||| ((n >>> 12) &&& 63), 128 ||| ((n >>> 6) &&& 63),
     128 ||| (n &&& 63)]

/-- UTF-8 encoding of a string. -/
def utf8Bytes (s : String) : List Nat := (s.data.map utf8Char).flatten

/-- Value of one standard-base64 alphabet character, `none` for padding
and out-of-alphabet characters. -/
def b64val (c : Char) : Option Nat :=
  if 'A' ≤ c ∧ c ≤ 'Z' then some (c.toNat - 65)
  else if 'a' ≤ c ∧ c ≤ 'z' then some (c.toNat - 97 + 26)
  else if '0' ≤ c ∧ c ≤ '9' then some (c.toNat - 48 + 52)
  else if c = '+' then some 62
  else if c = '/' then some 63
  else none

/-- Reassemble 6-bit groups into bytes (4 sextets to 3 bytes, with the
2- and 3-sextet tails produced by `=` padding). -/
def b64groups : List Nat → List Nat
  | a :: b :: c :: d :: rest =>
    ((a <<< 2) ||| (b >>> 4)) :: (((b &&& 15) <<< 4) ||| (c >>> 2))
      :: (((c &&& 3) <<< 6) ||| d) :: b64groups rest
  | [a, b, c] => [(a <<< 2) ||| (b >>> 4), ((b &&& 15) <<< 4) ||| (c >>> 2)]
  | [a, b] => [(a <<< 2) ||| (b >>> 4)]
  | _ => []

/-- `base64.b64decode` on the secret key: non-alphabet characters
(including the `=` padding) are discarded, then sextets are packed into
bytes.  (Python additionally raises on mis-padded input; the clients are
only ever configured with well-formed keys, and both the source embedding
and the spec-side definition below share this decoder.) -/
def b64decode (s : String) : List Nat := b64groups (s.data.filterMap b64val)

/-- One character of the URL-safe base64 alphabet. -/
def b64url_char (n : Nat) : Char :=
  if n < 26 then Char.ofNat (65 + n)
  else if n < 52 then Char.ofNat (97 + n - 26)
  else if n < 62 then Char.ofNat (48 + n - 52)
  else if n = 62 then '-'
  else '_'

/-- `base64.urlsafe_b64encode` over bytes, with `=` padding. -/
def b64urlsafe_encode : List Nat → List Char
  | a :: b :: c :: rest =>
    b64url_char (a >>> 2) :: b64url_char (((a &&& 3) <<< 4) ||| (b >>> 4))
      :: b64url_char (((b &&& 15) <<< 2) ||| (c >>> 6)) :: b64url_char (c &&& 63)
      :: b64urlsafe_encode rest
  | [a, b] => [b64url_char (a >>> 2), b64url_char (((a &&& 3) <<< 4) ||| (b >>> 4)),
      b64url_char ((b &&& 15) <<< 2), '=']
  | [a] => [b64url_char (a >>> 2), b64url_char ((a &&& 3) <<< 4), '=', '=']
  | [] => []

/-- `.rstrip('=')` on the encoded signature. -/
def rstrip_eq (l : List Char) : List Char := (l.reverse.dropWhile (· = '=')).reverse

namespace ChabadClient

/-- `ChabadClient._create_auth_header` (src/bot/chabad_client.py lines
46-63).  The instance fields `public_key` / `secret_key` are passed as
arguments (a Python `None` key is embedded as `""`; both are falsy and
take the same early-return branch), and `int(time.time())` is passed as
`timestamp`. -/
def create_auth_header (public_key secret_key route user : String)
    (timestamp : Nat) : Option String :=
  if public_key = "" ∨ secret_key = "" then none
  else
    let to_sign := String.intercalate "|"
      (([public_key, user, toString timestamp, route]).filter (fun f => !(f == "")))
    let secret_bytes := b64decode secret_key
    let signature := hmac_sha1 secret_bytes (utf8Bytes to_sign)
    let signature_b64 := String.mk (rstrip_eq (b64urlsafe_encode signature))
    let header_parts := String.intercalate "|"
      (([public_key, user, toString timestamp]).filter (fun f => !(f == "")))
    some ("h=" ++ header_parts ++ "; s=" ++ signature_b64)

/-- The header construction in the words of spec section 4.6: pipe-join
{public_key, user (optional), unix timestamp, route} omitting empty
fields; HMAC-SHA1 keyed by the base64-decoded secret; base64url-encode the
digest stripping trailing '='; emit `h=<public_key>|<user>|<timestamp>;
s=<signature>` with the user segment omitted when empty; no header when
either key is missing. -/
def auth_header_spec (public_key secret_key route user : String)
    (timestamp : Nat) : Option String :=
  if public_key = "" ∨ secret_key = "" then none
  else
    let fields := ([public_key, user, toString timestamp, route]).filter (fun f => !(f == ""))
    let signing_string := String.intercalate "|" fields
    let digest := hmac_sha1 (b64decode secret_key) (utf8Bytes signing_string)
    let sig := String.mk (rstrip_eq (b64urlsafe_encode digest))
    let h_segment :=
      if user = "" then public_key ++ "|" ++ toString timestamp
      else public_key ++ "|" ++ user ++ "|" ++ toString timestamp
    some ("h=" ++ h_segment ++ "; s=" ++ sig)

end ChabadClient

/-! ### A small backtracking regex engine

`ChabadClient._parse_html_content` runs three fixed `re` patterns
(`re.findall` / `re.search`).  The engine below reproduces Python `re`
semantics for the constructs those patterns use: literal characters
(case-insensitive, `re.IGNORECASE`), character classes, greedy `*`, lazy
`*?`, one capture group, leftmost search, and non-overlapping `findall`.
Alternatives are explored in backtracking preference order through a
continuation, and a fuel argument bounds star unrolling (every star body
here consumes at least one character, so `length + 1` fuel never cuts a
match short). -/

/-- Regex syntax for the three fixed patterns. -/
inductive RE where
  | eps
  | cls (p : Char → Bool)
  | seq (a b : RE)
  | alt (a b : RE)
  | starG (a : RE)
  | starL (a : RE)
  | grp (a : RE)

/-- Pattern size, used to budget the matcher's fuel. -/
def sizeRE : RE → Nat
  | .eps => 1
  | .cls _ => 1
  | .seq a b => sizeRE a + sizeRE b + 1
  | .alt a b => sizeRE a + sizeRE b + 1
  | .starG a => sizeRE a + 1
  | .starL a => sizeRE a + 1
  | .grp a => sizeRE a + 1

/-- The matcher: try to match `re` against a prefix of `s`, calling the
continuation `k` with the remaining input and the current group capture,
in backtracking preference order (first success wins).  Structurally
recursive on fuel so the kernel can evaluate it; fuel is consumed per
nesting level (one per regex node entered plus one per star unrolling),
so `(sizeRE re + 1) * (length + 2)` never runs out: each star iteration
consumes at least one character. -/
def reM {α : Type} : Nat → RE → List Char → Option (List Char) →
    (List Char → Option (List Char) → Option α) → Option α
  | 0, _, _, _, _ => none
  | _ + 1, .eps, s, cap, k => k s cap
  | _ + 1, .cls _, [], _, _ => none
  | _ + 1, .cls p, c :: s, cap, k => if p c then k s cap else none
  | f + 1, .seq a b, s, cap, k => reM f a s cap fun s1 c1 => reM f b s1 c1 k
  | f + 1, .alt a b, s, cap, k => (reM f a s cap k) <|> (reM f b s cap k)
  | f + 1, .starG a, s, cap, k =>
    (reM f a s cap fun s1 c1 =>
      if s1.length < s.length then reM f (.starG a) s1 c1 k else none) <|> k s cap
  | f + 1, .starL a, s, cap, k =>
    (k s cap) <|> (reM f a s cap fun s1 c1 =>
      if s1.length < s.length then reM f (.starL a) s1 c1 k else none)
  | f + 1, .grp a, s, cap, k =>
    reM f a s cap fun s1 _ => k s1 (some (s.take (s.length - s1.length)))

/-- The preferred match of `re` anchored at the start of `s`:
(consumed length, group capture). -/
def reMatch (re : RE) (s : List Char) : Option (Nat × Option (List Char)) :=
  reM ((sizeRE re + 1) * (s.length + 2)) re s none
    (fun s1 cap => some (s.length - s1.length, cap))

/-- `re.search`: the leftmost match, as (start, consumed length, group
capture). -/
def reSearch (re : RE) : List Char → Option (Nat × Nat × Option (List Char))
  | [] => (reMatch re []).map (fun r => (0, r.1, r.2))
  | c :: t =>
    match reMatch re (c :: t) with
    | some (len, cap) => some (0, len, cap)
    | none => (reSearch re t).map (fun r => (r.1 + 1, r.2.1, r.2.2))

/-- `re.findall` on a one-group pattern: the group captures of the
successive non-overlapping leftmost matches (an empty match advances by
one position). -/
def reFindall (re : RE) : Nat → List Char → List (List Char)
  | 0, _ => []
  | fuel + 1, s =>
    match reSearch re s with
    | none => []
    | some (st, len, cap) =>
      cap.getD [] :: reFindall re fuel (s.drop (st + max len 1))

/-- `re.findall` with enough fuel for the whole input. -/
def reFindallTop (re : RE) (s : List Char) : List (List Char) :=
  reFindall re (s.length + 1) s

/-- A single-quote character (code point 39). -/
def squote : Char := Char.ofNat 39

/-- Case-sensitive literal character. -/
def litc (c : Char) : RE := .cls (fun x => x == c)

/-- Case-insensitive literal character (`re.IGNORECASE`). -/
def litci (c : Char) : RE := .cls (fun x => x.toLower == c.toLower)

/-- Case-insensitive literal string. -/
def strci (s : String) : RE := (s.data.map litci).foldr .seq .eps

/-- The class `["\']`. -/
def quote_cls : RE := .cls (fun c => c == '"' || c == squote)

/-- The greedy class `[^>]*`. -/
def nongt : RE := .starG (.cls (fun c => !(c == '>')))

/-- Sequence of regexes. -/
def seqs (l : List RE) : RE := l.foldr .seq .eps

/-- `<script[^>]*type=["\']application/ld\+json["\'][^>]*>(.*?)</script>`
with `re.DOTALL | re.IGNORECASE` (so `.` matches every character). -/
def jsonld_re : RE :=
  seqs [strci "<script", nongt, strci "type=", quote_cls,
    strci "application/ld+json", quote_cls, nongt, litc '>',
    .grp (.starL (.cls (fun _ => true))), strci "</script>"]

/-- `<title[^>]*>(.*?)</title>` with `re.IGNORECASE` only (so `.` does not
match a newline). -/
def title_re : RE :=
  seqs [strci "<title", nongt, litc '>',
    .grp (.starL (.cls (fun c => !(c == '\n')))), strci "</title>"]

/-- `<meta[^>]*name=["\']description["\'][^>]*content=["\']([^"\']*)["\'][^>]*>`
with `re.IGNORECASE`. -/
def desc_re : RE :=
  seqs [strci "<meta", nongt, strci "name=", quote_cls, strci "description",
    quote_cls, nongt, strci "content=", quote_cls,
    .grp (.starG (.cls (fun c => !(c == '"' || c == squote)))),
    quote_cls, nongt, litc '>']

/-- The uniform normalized shape of `_parse_html_content`: a Python dict
with the optional keys `structured_data`, `title`, `description`.  `J` is
the type of parsed JSON values returned by `json.loads`. -/
structure ParseResult (J : Type) where
  structured_data : Option J
  title : Option String
  description : Option String

/-- The `for match in jsonld_matches:` loop of `_parse_html_content`:
`json.loads(match.strip())`, keep the first success (`break`), skip
parse failures (`continue`). -/
def first_parseable {J : Type} (jparse : String → Option J) : List (List Char) → Option J
  | [] => none
  | m :: ms =>
    match jparse (String.mk (stripL m)) with
    | some d => some d
    | none => first_parseable jparse ms

namespace ChabadClient

/-- `ChabadClient._parse_html_content` (src/bot/chabad_client.py lines
93-124): the JSON-LD loop, the `<title>` search, and the meta-description
search, each independent and optional.  `jparse` stands for `json.loads`
(returning `none` on `JSONDecodeError`); it is shared with the spec-side
definition below. -/
def parse_html_content {J : Type} (jparse : String → Option J) (html : String) :
    ParseResult J :=
  { structured_data := first_parseable jparse (reFindallTop jsonld_re html.data),
    title := (reSearch title_re html.data).map (fun r => String.mk (stripL (r.2.2.getD []))),
    description :=
      (reSearch desc_re html.data).map (fun r => String.mk (stripL (r.2.2.getD []))) }

/-- The normalizer in the words of spec section 4.3: structuredData is the
first `<script type="application/ld+json">` block whose content parses as
valid JSON; title and description are the `<title>` text and the `content`
attribute of `<meta name="description">`; each field is independent and
optional. -/
def normalize_spec {J : Type} (jparse : String → Option J) (html : String) :
    ParseResult J :=
  { structured_data := ((reFindallTop jsonld_re html.data).filterMap
      (fun m => jparse (String.mk (stripL m)))).head?,
    title := (reSearch title_re html.data).map (fun r => String.mk (stripL (r.2.2.getD []))),
    description :=
      (reSearch desc_re html.data).map (fun r => String.mk (stripL (r.2.2.getD []))) }

end ChabadClient

/-! ## Helper lemmas -/

/-- The lowercased char list of a string is empty exactly when the string
is empty (so testing `category_lower` for emptiness agrees with testing
`category`). -/
theorem lowerData_beq_nil (s : String) : (lowerData s == []) = (s == "") := by
  rw [Bool.eq_iff_iff]
  simp only [beq_iff_eq, lowerData, List.map_eq_nil_iff]
  constructor
  · intro h
    cases s with
    | mk l => cases l with
      | nil => rfl
      | cons c cs => simp at h
  · intro h
    subst h
    rfl

/-- The scan loop of `search_books` collects, past an accumulator that is
still under the limit, exactly the first matching entries in catalog
order. -/
theorem search_books_loop_eq (ql cl al : List Char) (limit : Int)
    (acc : List Book) (bs : List Book) (h : (acc.length : Int) < limit) :
    DictaClient.search_books_loop ql cl al limit acc bs
      = acc ++ (bs.filter (DictaClient.book_match ql cl al)).take (limit.toNat - acc.length) := by
  induction bs generalizing acc with
  | nil => simp [DictaClient.search_books_loop]
  | cons b bs ih =>
    unfold DictaClient.search_books_loop
    by_cases hm : DictaClient.book_match ql cl al b
    · rw [if_pos hm]
      by_cases hl : limit ≤ (((acc ++ [b]).length : Nat) : Int)
      · rw [if_pos hl]
        have hone : limit.toNat - acc.length = 1 := by
          simp only [List.length_append, List.length_cons, List.length_nil] at hl
          omega
        simp [List.filter_cons, hm, hone]
      · rw [if_neg hl]
        have hlt : ((acc ++ [b]).length : Int) < limit := by
          omega
        rw [ih _ hlt]
        have hsucc : limit.toNat - acc.length = (limit.toNat - (acc ++ [b]).length) + 1 := by
          simp only [List.length_append, List.length_cons, List.length_nil] at hl ⊢
          omega
        simp [List.filter_cons, hm, hsucc, List.append_assoc]
    · rw [if_neg hm, ih _ h]
      simp [List.filter_cons, hm]

/-- The sequential match-flag computation of `search_books` agrees with the
spec's match predicate. -/
theorem book_match_eq_matches_spec (query category author : String) (b : Book) :
    DictaClient.book_match (lowerData query) (lowerData category) (lowerData author) b
      = DictaClient.matches_spec query category author b := by
  unfold DictaClient.book_match DictaClient.matches_spec
  rw [← lowerData_beq_nil category, ← lowerData_beq_nil author]
  generalize containsSub (lowerData b.displayName) (lowerData query) = A
  generalize containsSub (lowerData b.displayNameEnglish) (lowerData query) = B
  generalize containsSub (lowerData b.author) (lowerData query) = C
  generalize containsSub (lowerData b.authorEnglish) (lowerData query) = D
  generalize (lowerData category == ([] : List Char)) = E
  generalize containsSub (lowerData b.categoryEnglish) (lowerData category) = F
  generalize (lowerData author == ([] : List Char)) = G
  generalize containsSub (lowerData b.author) (lowerData author) = H
  generalize containsSub (lowerData b.authorEnglish) (lowerData author) = I
  revert A B C D E F G H I
  decide

/-! ## Claim theorems -/

/-- C1: for every simulated HTTP outcome (status 200 with or without a
JSON-parseable body, 404, 429, any other non-200 status, connection error,
timeout, or any other exception) the `_make_request` methods of the Sefaria
and NLI clients return a value — the parsed payload on status 200 and
`None` otherwise.  The embedded functions are total over `HttpOutcome`,
which models the source's exhaustive `try/except` dispatch: no exception
escapes to the caller. -/
theorem c1_make_request_never_raises (j : PyVal) (b : Option PyVal) (s : Nat) :
    (SefariaClient.make_request (.response 200 (some j))).1 = some j
  ∧ (SefariaClient.make_request (.response 200 none)).1 = none
  ∧ (SefariaClient.make_request (.response 404 b)).1 = none
  ∧ (SefariaClient.make_request (.response 429 b)).1 = none
  ∧ (s ≠ 200 → (SefariaClient.make_request (.response s b)).1 = none)
  ∧ (SefariaClient.make_request .clientError).1 = none
  ∧ (SefariaClient.make_request .timeoutError).1 = none
  ∧ (SefariaClient.make_request .otherError).1 = none
  ∧ (NLIClient.make_request (.response 200 (some j))).1 = some j
  ∧ (NLIClient.make_request (.response 200 none)).1 = none
  ∧ (s ≠ 200 → (NLIClient.make_request (.response s b)).1 = none)
  ∧ (NLIClient.make_request .clientError).1 = none
  ∧ (NLIClient.make_request .timeoutError).1 = none
  ∧ (NLIClient.make_request .otherError).1 = none := by
  refine ⟨rfl, rfl, rfl, rfl, ?_, rfl, rfl, rfl, rfl, rfl, ?_, rfl, rfl, rfl⟩
  · intro hs
    simp [SefariaClient.make_request, hs]
  · intro hs
    simp [NLIClient.make_request, hs]

/-- C1 witness: the theorem applied at a concrete outcome (status 500),
discharging the `s ≠ 200` hypotheses. -/
theorem c1_witness :
    (500 ≠ 200)
  ∧ (SefariaClient.make_request (.response 500 none)).1 = none
  ∧ (NLIClient.make_request (.response 500 none)).1 = none := by
  have h := c1_make_request_never_raises .null none 500
  exact ⟨by decide, h.2.2.2.2.1 (by decide), h.2.2.2.2.2.2.2.2.2.2.1 (by decide)⟩

/-- C2: if the rate limiter's sleep suspends the caller for at least
`sleep_needed` seconds (so the post-sleep clock `t2` is at least
`t1 + sleep_needed`), then the newly recorded dispatch timestamp is at
least `delay` seconds after the previous one; and the sleep duration is
exactly `delay` minus the elapsed time, floored at 0. -/
theorem c2_rate_limit_min_interval (delay last t1 t2 : ℚ)
    (h : t1 + RateLimiter.sleep_needed delay last t1 ≤ t2) :
    delay ≤ (RateLimiter.rate_limit delay last t1 t2).2 - last
  ∧ RateLimiter.sleep_needed delay last t1 = max (delay - (t1 - last)) 0 := by
  constructor
  · unfold RateLimiter.rate_limit
    unfold RateLimiter.sleep_needed at h
    split at h <;> simp only at * <;> linarith
  · unfold RateLimiter.sleep_needed
    split
    · exact (max_eq_left (by linarith)).symm
    · exact (max_eq_right (by linarith)).symm

/-- C2 witness: the theorem at `delay = 1`, `last = 0`, entry clock `0`,
post-sleep clock `1`. -/
theorem c2_witness :
    (0 : ℚ) + RateLimiter.sleep_needed 1 0 0 ≤ 1
  ∧ ((1 : ℚ) ≤ (RateLimiter.rate_limit 1 0 0 1).2 - 0
      ∧ RateLimiter.sleep_needed 1 0 0 = max (1 - (0 - 0)) 0) := by
  refine ⟨?_, c2_rate_limit_min_interval 1 0 0 1 ?_⟩ <;>
    norm_num [RateLimiter.sleep_needed]

/-- C3 counterexample: the Sefaria client's `_make_request` handles a 429
response in its generic non-200 branch, performing no extra wait at all —
refuting, for that client, the claim that every 429 is followed by a wait
of at least 2 seconds. -/
theorem c3_counterexample :
    (SefariaClient.make_request (.response 429 none)).2 = 0
  ∧ ¬ ((2 : ℚ) ≤ (SefariaClient.make_request (.response 429 none)).2) := by
  refine ⟨rfl, ?_⟩
  rw [show (SefariaClient.make_request (.response 429 none)).2 = 0 from rfl]
  norm_num

/-- C3 (amended): the Hebcal client's `_make_request` resolves a 429
response to `None` after an extra wait of exactly 2 seconds (and does not
re-issue the request within the call), while the Sefaria client resolves a
429 to `None` with no extra wait. -/
theorem c3_hebcal_429_fixed_delay (b : Option PyVal) :
    HebcalClient.make_request (.response 429 b) = (none, 2)
  ∧ (2 : ℚ) ≤ (HebcalClient.make_request (.response 429 b)).2
  ∧ SefariaClient.make_request (.response 429 b) = (none, 0) :=
  ⟨rfl, le_refl 2, rfl⟩

/-- C4: the catalog cache is populated at most once.  A first call (cache
`None`) fetches, memoizes the fetched list — or `[]` when the fetch failed
or returned a non-list — and returns it; any call with a populated cache
returns the cached sequence unchanged without fetching; composing two
calls, the second returns exactly what the first memoized and performs no
fetch. -/
theorem c4_catalog_cache_once (xs books : List PyVal) (v : PyVal)
    (f f2 : Option PyVal) (hv : v.isList = false) :
    DictaClient.get_books_library none (some (.list xs)) = (xs, some xs, true)
  ∧ DictaClient.get_books_library none (some v) = ([], some [], true)
  ∧ DictaClient.get_books_library none none = ([], some [], true)
  ∧ DictaClient.get_books_library (some books) f = (books, some books, false)
  ∧ (DictaClient.get_books_library (DictaClient.get_books_library none f).2.1 f2).1
      = (DictaClient.get_books_library none f).1
  ∧ (DictaClient.get_books_library (DictaClient.get_books_library none f).2.1 f2).2.2
      = false := by
  refine ⟨?_, ?_, rfl, rfl, ?_, ?_⟩
  · cases xs <;> rfl
  · cases v <;> simp_all [PyVal.isList, DictaClient.get_books_library]
  · rcases f with _ | w
    · rfl
    · cases w <;> rfl
  · rcases f with _ | w
    · rfl
    · cases w <;> rfl

/-- C4 witness: the theorem at a concrete one-entry fetched list and a
concrete non-list fetch result. -/
theorem c4_witness :
    PyVal.isList (.str "oops") = false
  ∧ DictaClient.get_books_library none (some (.list [.null])) = ([.null], some [.null], true)
  ∧ DictaClient.get_books_library none (some (.str "oops")) = ([], some [], true) := by
  have h := c4_catalog_cache_once [.null] [] (.str "oops") none none (by rfl)
  exact ⟨rfl, h.1, h.2.1⟩

/-- C5 counterexample: with `limit = 0` the scan appends the first matching
entry before testing the limit, so the result has one entry — more than
`limit` — refuting "returns at most `limit` entries" as universally
stated. -/
theorem c5_counterexample :
    (DictaClient.search_books [bkTalmud] "talmud" "" "" 0).length = 1
  ∧ ¬ ((DictaClient.search_books [bkTalmud] "talmud" "" "" 0).length ≤ 0) := by
  refine ⟨rfl, ?_⟩
  rw [show (DictaClient.search_books [bkTalmud] "talmud" "" "" 0).length = 1 from rfl]
  omega

/-- C5 (amended): for every catalog, query, category filter, author filter
and *positive* limit, `search_books` returns exactly the first matching
entries of a linear scan in catalog order, capped at `limit` — that is, the
first `limit` elements of the catalog filtered by the spec's match
predicate — and in particular at most `limit` entries. -/
theorem c5_search_books_spec (books : List Book) (query category author : String)
    (limit : Int) (h : 1 ≤ limit) :
    DictaClient.search_books books query category author limit
      = (books.filter (DictaClient.matches_spec query category author)).take limit.toNat
  ∧ (DictaClient.search_books books query category author limit).length ≤ limit.toNat := by
  have hb : ∀ b, DictaClient.book_match (lowerData query) (lowerData category)
      (lowerData author) b = DictaClient.matches_spec query category author b :=
    fun b => book_match_eq_matches_spec query category author b
  have heq : DictaClient.search_books books query category author limit
      = (books.filter (DictaClient.matches_spec query category author)).take limit.toNat := by
    unfold DictaClient.search_books
    rw [search_books_loop_eq _ _ _ _ _ _ (by simpa using h)]
    simp only [List.nil_append, List.length_nil, Nat.sub_zero]
    congr 1
    exact List.filter_congr fun b _ => hb b
  refine ⟨heq, ?_⟩
  rw [heq]
  exact List.length_take_le _ _

/-- C5 witness: the amended theorem on a concrete two-entry catalog with
query "talmud" and limit 3. -/
theorem c5_witness :
    (1 : Int) ≤ 3
  ∧ (DictaClient.search_books [bkTalmud, bkSiddur] "talmud" "" "" 3
      = ([bkTalmud, bkSiddur].filter (DictaClient.matches_spec "talmud" "" "")).take (3 : Int).toNat
    ∧ (DictaClient.search_books [bkTalmud, bkSiddur] "talmud" "" "" 3).length ≤ (3 : Int).toNat) :=
  ⟨by norm_num, c5_search_books_spec [bkTalmud, bkSiddur] "talmud" "" "" 3 (by norm_num)⟩

/-! ## Dict lemmas and C6 / C10 -/

/-- Looking up the key just assigned returns the assigned value. -/
theorem getVal_setVal_self (d : PyDict) (k : String) (v : PyVal) :
    PyDict.getVal (PyDict.setVal d k v) k = some v := by
  induction d with
  | nil => simp [PyDict.setVal, PyDict.getVal]
  | cons p d ih =>
    obtain ⟨k', v'⟩ := p
    unfold PyDict.setVal
    by_cases h : k' = k
    · rw [if_pos h]
      simp [PyDict.getVal]
    · rw [if_neg h]
      simp [PyDict.getVal, h, ih]

/-- Assignment to one key leaves other keys unchanged. -/
theorem getVal_setVal_ne (d : PyDict) (k j : String) (v : PyVal) (h : k ≠ j) :
    PyDict.getVal (PyDict.setVal d k v) j = PyDict.getVal d j := by
  induction d with
  | nil => simp [PyDict.setVal, PyDict.getVal, h]
  | cons p d ih =>
    obtain ⟨k', v'⟩ := p
    unfold PyDict.setVal
    by_cases hk : k' = k
    · rw [if_pos hk]
      subst hk
      simp [PyDict.getVal, h]
    · rw [if_neg hk]
      simp [PyDict.getVal, ih]

/-- A dict with a bound key is not empty (so `if not text_data:` does not
fire). -/
theorem getVal_some_not_isEmpty (d : PyDict) (k : String) (v : PyVal)
    (h : PyDict.getVal d k = some v) : d.isEmpty = false := by
  cases d
  · simp [PyDict.getVal] at h
  · rfl

/-- `trunc_key` on a long-enough list value: the key now holds the
`n`-element prefix. -/
theorem trunc_key_get (d : PyDict) (k marker : String) (n : Nat) (xs : List PyVal)
    (hmk : marker ≠ k) (h : PyDict.getVal d k = some (.list xs)) (hn : n < xs.length) :
    PyDict.getVal (SefariaClient.trunc_key d k n marker) k = some (.list (xs.take n)) := by
  simp only [SefariaClient.trunc_key, h]
  rw [if_pos hn, getVal_setVal_ne _ _ _ _ hmk, getVal_setVal_self]

/-- `trunc_key` on a long-enough list value sets the marker key. -/
theorem trunc_key_marker_set (d : PyDict) (k marker : String) (n : Nat) (xs : List PyVal)
    (h : PyDict.getVal d k = some (.list xs)) (hn : n < xs.length) :
    PyDict.getVal (SefariaClient.trunc_key d k n marker) marker = some (.bool true) := by
  simp only [SefariaClient.trunc_key, h]
  rw [if_pos hn, getVal_setVal_self]

/-- `trunc_key` touches only its key and its marker. -/
theorem trunc_key_other (d : PyDict) (k marker j : String) (n : Nat)
    (hk : k ≠ j) (hm : marker ≠ j) :
    PyDict.getVal (SefariaClient.trunc_key d k n marker) j = PyDict.getVal d j := by
  unfold SefariaClient.trunc_key
  split
  · split
    · rw [getVal_setVal_ne _ _ _ _ hm, getVal_setVal_ne _ _ _ _ hk]
    · rfl
  · rfl

/-- `trunc_key` never unsets an already-set marker. -/
theorem trunc_key_marker_mono (d : PyDict) (k marker : String) (n : Nat)
    (h : PyDict.getVal d marker = some (.bool true)) :
    PyDict.getVal (SefariaClient.trunc_key d k n marker) marker = some (.bool true) := by
  unfold SefariaClient.trunc_key
  split
  · split
    · rw [getVal_setVal_self]
    · exact h
  · exact h

/-- The two-key truncation pass (first "text", then "he", same length
bound and marker): effect on "text", "he" and the marker. -/
theorem trunc_pass_spec (d : PyDict) (n : Nat) (marker : String) (xs ys : List PyVal)
    (hmt : marker ≠ "text") (hmh : marker ≠ "he") (hth : ("text" : String) ≠ "he") :
    (PyDict.getVal d "text" = some (.list xs) → n < xs.length →
      PyDict.getVal (SefariaClient.trunc_key (SefariaClient.trunc_key d "text" n marker)
          "he" n marker) "text" = some (.list (xs.take n))
      ∧ PyDict.getVal (SefariaClient.trunc_key (SefariaClient.trunc_key d "text" n marker)
          "he" n marker) marker = some (.bool true))
  ∧ (PyDict.getVal d "he" = some (.list ys) → n < ys.length →
      PyDict.getVal (SefariaClient.trunc_key (SefariaClient.trunc_key d "text" n marker)
          "he" n marker) "he" = some (.list (ys.take n))
      ∧ PyDict.getVal (SefariaClient.trunc_key (SefariaClient.trunc_key d "text" n marker)
          "he" n marker) marker = some (.bool true)) := by
  constructor
  · intro ht hn
    constructor
    · rw [trunc_key_other _ _ _ _ _ (Ne.symm hth) hmt]
      exact trunc_key_get d "text" marker n xs hmt ht hn
    · exact trunc_key_marker_mono _ _ _ _ (trunc_key_marker_set d "text" marker n xs ht hn)
  · intro hh hn
    have hh1 : PyDict.getVal (SefariaClient.trunc_key d "text" n marker) "he"
        = some (.list ys) := by
      rw [trunc_key_other _ _ _ _ _ hth hmh]
      exact hh
    constructor
    · exact trunc_key_get _ "he" marker n ys hmh hh1 hn
    · exact trunc_key_marker_set _ "he" marker n ys hh1 hn

/-- C6: `get_text` on a reference containing ':' and no '-' truncates a
multi-element "text" (and "he") list to its first element and sets the
`single_verse` marker; on any other reference shape it truncates lists
longer than 3 to their first 3 elements and sets the `truncated` marker. -/
theorem c6_get_text_truncation (ref : String) (d : PyDict) (xs ys : List PyVal) :
    (SefariaClient.single_verse_shape ref = true →
      ((PyDict.getVal d "text" = some (.list xs) → 1 < xs.length →
        ∃ d', SefariaClient.get_text ref (some d) = some d'
          ∧ PyDict.getVal d' "text" = some (.list (xs.take 1))
          ∧ PyDict.getVal d' "single_verse" = some (.bool true))
      ∧ (PyDict.getVal d "he" = some (.list ys) → 1 < ys.length →
        ∃ d', SefariaClient.get_text ref (some d) = some d'
          ∧ PyDict.getVal d' "he" = some (.list (ys.take 1))
          ∧ PyDict.getVal d' "single_verse" = some (.bool true))))
  ∧ (SefariaClient.single_verse_shape ref = false →
      ((PyDict.getVal d "text" = some (.list xs) → 3 < xs.length →
        ∃ d', SefariaClient.get_text ref (some d) = some d'
          ∧ PyDict.getVal d' "text" = some (.list (xs.take 3))
          ∧ PyDict.getVal d' "truncated" = some (.bool true))
      ∧ (PyDict.getVal d "he" = some (.list ys) → 3 < ys.length →
        ∃ d', SefariaClient.get_text ref (some d) = some d'
          ∧ PyDict.getVal d' "he" = some (.list (ys.take 3))
          ∧ PyDict.getVal d' "truncated" = some (.bool true)))) := by
  constructor
  · intro hshape
    have hsv := trunc_pass_spec d 1 "single_verse" xs ys (by decide) (by decide) (by decide)
    constructor
    · intro ht hn
      have hne := getVal_some_not_isEmpty d "text" _ ht
      have hget : SefariaClient.get_text ref (some d)
          = some (SefariaClient.trunc_key (SefariaClient.trunc_key d "text" 1 "single_verse")
              "he" 1 "single_verse") := by
        simp [SefariaClient.get_text, hne, ht, hshape]
      exact ⟨_, hget, (hsv.1 ht hn).1, (hsv.1 ht hn).2⟩
    · intro hh hn
      have hne := getVal_some_not_isEmpty d "he" _ hh
      have hget : SefariaClient.get_text ref (some d)
          = some (SefariaClient.trunc_key (SefariaClient.trunc_key d "text" 1 "single_verse")
              "he" 1 "single_verse") := by
        simp [SefariaClient.get_text, hne, hh, hshape]
      exact ⟨_, hget, (hsv.2 hh hn).1, (hsv.2 hh hn).2⟩
  · intro hshape
    have htr := trunc_pass_spec d 3 "truncated" xs ys (by decide) (by decide) (by decide)
    constructor
    · intro ht hn
      have hne := getVal_some_not_isEmpty d "text" _ ht
      have hget : SefariaClient.get_text ref (some d)
          = some (SefariaClient.trunc_key (SefariaClient.trunc_key d "text" 3 "truncated")
              "he" 3 "truncated") := by
        simp [SefariaClient.get_text, hne, ht, hshape]
      exact ⟨_, hget, (htr.1 ht hn).1, (htr.1 ht hn).2⟩
    · intro hh hn
      have hne := getVal_some_not_isEmpty d "he" _ hh
      have hget : SefariaClient.get_text ref (some d)
          = some (SefariaClient.trunc_key (SefariaClient.trunc_key d "text" 3 "truncated")
              "he" 3 "truncated") := by
        simp [SefariaClient.get_text, hne, hh, hshape]
      exact ⟨_, hget, (htr.2 hh hn).1, (htr.2 hh hn).2⟩

/-- C6 witness: the single-verse branch on "Genesis 1:1" with a two-verse
payload. -/
theorem c6_witness :
    SefariaClient.single_verse_shape "Genesis 1:1" = true
  ∧ PyDict.getVal dTwoVerses "text" = some (.list [.str "a", .str "b"])
  ∧ 1 < ([PyVal.str "a", PyVal.str "b"] : List PyVal).length
  ∧ (∃ d', SefariaClient.get_text "Genesis 1:1" (some dTwoVerses) = some d'
      ∧ PyDict.getVal d' "text" = some (.list ([PyVal.str "a", PyVal.str "b"].take 1))
      ∧ PyDict.getVal d' "single_verse" = some (.bool true)) := by
  refine ⟨by decide, rfl, by decide, ?_⟩
  exact ((c6_get_text_truncation "Genesis 1:1" dTwoVerses [.str "a", .str "b"] []).1
    (by decide)).1 rfl (by decide)

/-- C10: a fetch that succeeds with status 200 but whose payload has
neither a "text" nor a "he" key makes `get_text` return `None`, exactly as
a failed fetch would. -/
theorem c10_get_text_no_content (ref : String) (d : PyDict)
    (ht : PyDict.getVal d "text" = none) (hh : PyDict.getVal d "he" = none) :
    (SefariaClient.make_request (.response 200 (some (.dict d)))).1 = some (.dict d)
  ∧ SefariaClient.get_text ref (some d) = none := by
  refine ⟨rfl, ?_⟩
  cases hE : d.isEmpty <;> simp [SefariaClient.get_text, hE, ht, hh]

/-- C10 witness: a concrete 200-status payload carrying only a "ref" key. -/
theorem c10_witness :
    PyDict.getVal dNoText "text" = none
  ∧ PyDict.getVal dNoText "he" = none
  ∧ (SefariaClient.make_request (.response 200 (some (.dict dNoText)))).1 = some (.dict dNoText)
  ∧ SefariaClient.get_text "Genesis 1:1" (some dNoText) = none := by
  refine ⟨rfl, rfl, ?_, ?_⟩
  · exact (c10_get_text_no_content "Genesis 1:1" dNoText rfl rfl).1
  · exact (c10_get_text_no_content "Genesis 1:1" dNoText rfl rfl).2

/-! ## C9: truncate_text -/

/-- A Python slice `l[:k]` is a prefix of `l`. -/
theorem pySlice_isPrefixOf (l : List Char) (k : Int) : pySlice l k <+: l := by
  unfold pySlice
  split <;> exact List.take_prefix _ _

/-- A Python slice `l[:k]` is no longer than `l`. -/
theorem pySlice_length_le (l : List Char) (k : Int) : (pySlice l k).length ≤ l.length := by
  unfold pySlice
  split <;> (rw [List.length_take]; exact min_le_right _ _)

/-- C9: `truncate_text` returns the text unchanged when it fits in
`max_length`; otherwise it returns a prefix of the text with "..."
appended, of total length at most `max_length + 3`. -/
theorem c9_truncate_text_bounds (text : List Char) (max_length : Nat) :
    (text.length ≤ max_length → truncate_text text max_length = text)
  ∧ (max_length < text.length →
      ∃ p, p <+: text ∧ truncate_text text max_length = p ++ ['.', '.', '.']
        ∧ (truncate_text text max_length).length ≤ max_length + 3) := by
  constructor
  · intro h
    unfold truncate_text
    split
    · next he => rw [List.isEmpty_iff.mp he]
    · rfl
  · intro h
    have hpre : text.take max_length <+: text := List.take_prefix _ _
    have hlen : (text.take max_length).length ≤ max_length := by
      rw [List.length_take]
      exact min_le_left _ _
    unfold truncate_text
    split
    · next he =>
      rw [List.isEmpty_iff.mp he] at h
      simp at h
    · split
      · next h2 => exact absurd h2 (by omega)
      · split
        · refine ⟨_, (pySlice_isPrefixOf _ _).trans hpre, rfl, ?_⟩
          have hb := pySlice_length_le (text.take max_length)
            (last_sentence_idx (text.take max_length) + 1)
          rw [List.length_append]
          simp only [List.length_cons, List.length_nil]
          omega
        · split
          · refine ⟨_, (pySlice_isPrefixOf _ _).trans hpre, rfl, ?_⟩
            have hb := pySlice_length_le (text.take max_length)
              (rfindC (text.take max_length) ' ')
            rw [List.length_append]
            simp only [List.length_cons, List.length_nil]
            omega
          · refine ⟨_, (pySlice_isPrefixOf _ _).trans hpre, rfl, ?_⟩
            have hb := pySlice_length_le (text.take max_length) ((max_length : Int) - 3)
            rw [List.length_append]
            simp only [List.length_cons, List.length_nil]
            omega

/-- C9 witness: a short text passes through unchanged; a long text is cut
to a prefix plus "..." within the bound. -/
theorem c9_witness :
    ("abc".data.length ≤ 5 ∧ truncate_text "abc".data 5 = "abc".data)
  ∧ (4 < "Hello. World".data.length
      ∧ ∃ p, p <+: "Hello. World".data
          ∧ truncate_text "Hello. World".data 4 = p ++ ['.', '.', '.']
          ∧ (truncate_text "Hello. World".data 4).length ≤ 4 + 3) :=
  ⟨⟨by decide, (c9_truncate_text_bounds "abc".data 5).1 (by decide)⟩,
   ⟨by decide, (c9_truncate_text_bounds "Hello. World".data 4).2 (by decide)⟩⟩

/-! ## C7: signed auth header -/

set_option maxRecDepth 40000

/-- SHA-1 sanity vector: the digest of "abc" (FIPS 180-4 test vector
`a9993e364706816aba3e25717850c26c9cd0d89d`). -/
theorem sha1_abc_vector : sha1_bytes (utf8Bytes "abc")
    = [169, 153, 62, 54, 71, 6, 129, 106, 186, 62, 37, 113, 120, 80, 194, 108,
       156, 208, 216, 157] := by
  rfl

/-- `Nat.toDigitsCore` never returns an empty list when seeded with a
non-empty accumulator. -/
theorem toDigitsCore_cons_ne_nil (b : Nat) : ∀ (f n : Nat) (c : Char) (ds : List Char),
    Nat.toDigitsCore b f n (c :: ds) ≠ [] := by
  intro f
  induction f with
  | zero =>
    intro n c ds
    simp [Nat.toDigitsCore]
  | succ f ih =>
    intro n c ds
    simp only [Nat.toDigitsCore]
    split
    · simp
    · exact ih _ _ _

/-- The decimal rendering of a natural number is never the empty string
(so `str(timestamp)` always survives the `filter(None, ...)`). -/
theorem nat_toString_ne_empty (n : Nat) : toString n ≠ "" := by
  show (Nat.toDigits 10 n).asString ≠ ""
  have h : Nat.toDigits 10 n ≠ [] := by
    unfold Nat.toDigits
    simp only [Nat.toDigitsCore]
    split
    · simp
    · exact toDigitsCore_cons_ne_nil 10 n (n / 10) _ []
  intro hc
  apply h
  have hd := congrArg String.data hc
  simpa [List.asString] using hd

/-- `"|".join` of two strings. -/
theorem intercalate_pair (a b : String) : String.intercalate "|" [a, b] = a ++ "|" ++ b := by
  simp [String.intercalate, String.intercalate.go]

/-- `"|".join` of three strings. -/
theorem intercalate_triple (a b c : String) :
    String.intercalate "|" [a, b, c] = a ++ "|" ++ b ++ "|" ++ c := by
  simp [String.intercalate, String.intercalate.go]

/-- C7: `_create_auth_header` equals the spec's description of the header
(pipe-joined signing string omitting empty fields, HMAC-SHA1 under the
base64-decoded secret, base64url digest with '=' stripped, `h=...; s=...`
with the user segment omitted when empty; no header when a key is
missing), and it reproduces the fixed regression vector for
`public_key="pub"`, `secret_key=base64("secret")`, `route="/x"`,
`timestamp=1000000000`, no user. -/
theorem c7_auth_header (pk sk route user : String) (ts : Nat) :
    ChabadClient.create_auth_header pk sk route user ts
      = ChabadClient.auth_header_spec pk sk route user ts
  ∧ ChabadClient.create_auth_header "pub" "c2VjcmV0" "/x" "" 1000000000
      = some "h=pub|1000000000; s=LmVt2Oh0mIomihl9ve5mA3-v1Uw"
  ∧ ChabadClient.create_auth_header "" "c2VjcmV0" "/x" "" 1000000000 = none
  ∧ ChabadClient.create_auth_header "pub" "" "/x" "" 1000000000 = none := by
  refine ⟨?_, by rfl, by rfl, by rfl⟩
  unfold ChabadClient.create_auth_header ChabadClient.auth_header_spec
  by_cases h : pk = "" ∨ sk = ""
  · rw [if_pos h, if_pos h]
  · rw [if_neg h, if_neg h]
    push_neg at h
    have hpk : (pk == "") = false := beq_eq_false_iff_ne.mpr h.1
    have hts : (toString ts == "") = false := beq_eq_false_iff_ne.mpr (nat_toString_ne_empty ts)
    by_cases hu : user = ""
    · subst hu
      simp [List.filter_cons, hpk, hts, intercalate_pair]
    · have huf : (user == "") = false := beq_eq_false_iff_ne.mpr hu
      simp [List.filter_cons, hpk, hts, hu, huf, intercalate_triple]

/-! ## C8: HTML normalization -/

/-- The break/continue loop over JSON-LD blocks equals "first block whose
stripped content parses". -/
theorem first_parseable_eq {J : Type} (jparse : String → Option J) (l : List (List Char)) :
    first_parseable jparse l
      = (l.filterMap (fun m => jparse (String.mk (stripL m)))).head? := by
  induction l with
  | nil => rfl
  | cons m ms ih =>
    unfold first_parseable
    cases hj : jparse (String.mk (stripL m)) with
    | some d => simp [List.filterMap_cons, hj]
    | none => simp [List.filterMap_cons, hj, ih]

/-- C8: `_parse_html_content` equals the spec's normalizer (structuredData
= the first ld+json script block whose content parses as JSON; title and
meta description extracted independently, case-insensitively); a body with
a title and no JSON-LD yields only the title; a body with no matches at
all yields the empty record — never an error (the function is total). -/
theorem c8_parse_html_content (J : Type) (jparse : String → Option J) (html : String) :
    ChabadClient.parse_html_content jparse html = ChabadClient.normalize_spec jparse html
  ∧ ChabadClient.parse_html_content jparse "<title>Foo</title>"
      = { structured_data := none, title := some "Foo", description := none }
  ∧ ChabadClient.parse_html_content jparse "no html here"
      = { structured_data := none, title := none, description := none } := by
  refine ⟨?_, ?_, ?_⟩
  · have h := first_parseable_eq jparse (reFindallTop jsonld_re html.data)
    unfold ChabadClient.parse_html_content ChabadClient.normalize_spec
    rw [h]
  · unfold ChabadClient.parse_html_content
    rw [show reFindallTop jsonld_re ("<title>Foo</title>".data) = [] from rfl]
    rfl
  · unfold ChabadClient.parse_html_content
    rw [show reFindallTop jsonld_re ("no html here".data) = [] from rfl]
    rfl
